import Mathlib

/-!
Verification of the payment-reconciliation logic of the collections route
(`Backend/routes/collections.js`): the `PUT /collections/:historyId` handler
and the `DELETE /collections/:historyId` handler, shallowly embedded as pure
functions over an explicit database state.

Modelling choices:
* Monetary amounts are modelled as integers (`ℤ`): the JS code manipulates
  numbers with exact-looking arithmetic (`DECIMAL(10,2)` columns read through
  `parseFloat`); the claims under study are exact arithmetic identities, so the
  idealised exact integers stand in for the numeric values.
* A timestamp is reduced to its year-month pair (`YearMonth`): the handler only
  ever inspects `getFullYear()`/`getMonth()` of `changed_at` and its
  `YYYY-MM` ISO prefix, and writes `NOW()`.
* The two tables `student_membership_history` and `students` are lists of rows;
  `SELECT ... WHERE id = $1` with `rows[0]` is `List.find?`, an `UPDATE ...
  WHERE id = $n` maps over the list, an `INSERT` appends.
* The SQL transaction is modelled by returning the original database unchanged
  on every rollback path.
-/

namespace CityLibrary

/-- Year-month of a timestamp, the only part of `changed_at` the handler
inspects (`getFullYear`/`getMonth` for the same-month test, the `YYYY-MM`
ISO prefix for `source_month`). -/
structure YearMonth where
  year : Int
  month : Int
deriving DecidableEq

/-- A row of `student_membership_history`, with exactly the columns the
collections route reads or writes (the column list of the `INSERT` in the
previous-month branch). -/
structure HistoryRow where
  id : Nat := 0
  student_id : Nat := 0
  name : String := ""
  email : String := ""
  phone : String := ""
  address : String := ""
  membership_start : String := ""
  membership_end : String := ""
  status : String := ""
  total_fee : Int := 0
  amount_paid : Int := 0
  due_amount : Int := 0
  cash : Int := 0
  online : Int := 0
  security_money : Int := 0
  remark : String := ""
  seat_id : Option Nat := none
  shift_id : Option Nat := none
  branch_id : Option Nat := none
  registration_number : String := ""
  father_name : String := ""
  aadhar_number : String := ""
  profile_image_url : String := ""
  aadhaar_front_url : String := ""
  aadhaar_back_url : String := ""
  locker_id : Option Nat := none
  changed_at : YearMonth := ⟨1970, 1⟩
  prev_due_paid : Bool := false
  source_month : Option YearMonth := none
deriving DecidableEq

/-- The columns of the `students` snapshot row that the collections route
reads or writes. -/
structure Student where
  id : Nat := 0
  total_fee : Int := 0
  amount_paid : Int := 0
  due_amount : Int := 0
  cash : Int := 0
  online : Int := 0
deriving DecidableEq

/-- The two tables the `PUT` handler touches. -/
structure DB where
  history : List HistoryRow
  students : List Student
deriving DecidableEq

/-- `SELECT * FROM student_membership_history WHERE id = $1`, first row. -/
def findHistory (db : DB) (hid : Nat) : Option HistoryRow :=
  db.history.find? (fun r => r.id == hid)

/-- `SELECT * FROM students WHERE id = $1`, first row. -/
def findStudent (db : DB) (sid : Nat) : Option Student :=
  db.students.find? (fun s => s.id == sid)

/-- JS `Math.max` on two numbers. -/
def mathMax (a b : Int) : Int := if a ≤ b then b else a

/-- Outcome of the `PUT /collections/:historyId` handler: a 400, a 404, or a
200 carrying the history row the response's `collection` object is built
from (`updatedHistory`). -/
inductive PutResult where
  | badRequest (msg : String)
  | notFound (msg : String)
  | ok (row : HistoryRow)
deriving DecidableEq

/-- HTTP status code of a `PutResult`. -/
def statusCode : PutResult → Nat
  | .badRequest _ => 400
  | .notFound _ => 404
  | .ok _ => 200

/-- Whether the handler committed (responded 200). -/
def PutResult.isOk : PutResult → Bool
  | .ok _ => true
  | _ => false

/-- The returned row of a successful response, if any. -/
def PutResult.row? : PutResult → Option HistoryRow
  | .ok r => some r
  | _ => none

/-- Contribution of the payment to the `cash` column
(`payment_method === 'cash' ? payment_amount : 0`). -/
def incCash (pm : String) (amt : Int) : Int := if pm = "cash" then amt else 0

/-- Contribution of the payment to the `online` column
(`payment_method === 'online' ? payment_amount : 0`). -/
def incOnline (pm : String) (amt : Int) : Int := if pm = "online" then amt else 0

/-- The history row inserted by the previous-month branch: identity and
assignment columns copied from the original row, `total_fee = 0`,
`amount_paid = payment`, `due_amount = 0`, the payment in the matching
cash/online column, `security_money = 0`, the fixed remark, `changed_at =
NOW()`, `prev_due_paid = true`, `source_month` = the original row's month. -/
def prevNewRow (now : YearMonth) (newId : Nat) (history : HistoryRow)
    (amt : Int) (pm : String) : HistoryRow :=
  { history with
    id := newId
    total_fee := 0
    amount_paid := amt
    due_amount := 0
    cash := incCash pm amt
    online := incOnline pm amt
    security_money := 0
    remark := "Previous month due paid"
    changed_at := now
    prev_due_paid := true
    source_month := some history.changed_at }

/-- The student snapshot written by the previous-month branch: cash/online
and `amount_paid` incremented, `due_amount` decremented but clamped at 0. -/
def prevStudentUpd (student : Student) (amt : Int) (pm : String) : Student :=
  { student with
    cash := student.cash + incCash pm amt
    online := student.online + incOnline pm amt
    amount_paid := student.amount_paid + amt
    due_amount := mathMax (student.due_amount - amt) 0 }

/-- The database state committed by the previous-month branch: the targeted
row's `due_amount` decremented (the only column its `UPDATE` sets), the
student snapshot's four money columns overwritten with the incremented
values, and the new flagged row appended. -/
def prevCommit (db : DB) (now : YearMonth) (newId historyId : Nat)
    (history : HistoryRow) (student : Student) (amt : Int) (pm : String) : DB :=
  let stu := prevStudentUpd student amt pm
  { history :=
      (db.history.map (fun r =>
        if r.id = historyId then { r with due_amount := history.due_amount - amt } else r))
      ++ [prevNewRow now newId history amt pm]
    students := db.students.map (fun s =>
      if s.id = history.student_id then
        { s with cash := stu.cash, online := stu.online,
                 amount_paid := stu.amount_paid, due_amount := stu.due_amount }
      else s) }

/-- The previous-month branch of the `PUT` handler (`!isSameMonth`): reject if
the payment exceeds the row's due, else decrement the old row's `due_amount`,
rewrite the student snapshot, and insert a new current-month row flagged
`prev_due_paid`; the inserted row is the one returned. -/
def prevBranch (db : DB) (now : YearMonth) (newId historyId : Nat)
    (history : HistoryRow) (student : Student) (amt : Int) (pm : String) :
    PutResult × DB :=
  if history.due_amount - amt < 0 then
    (.badRequest "Payment exceeds due amount", db)
  else
    (.ok (prevNewRow now newId history amt pm),
     prevCommit db now newId historyId history student amt pm)

/-- The history row as rewritten by the same-month branch: the payment added
to the matching cash/online column, `amount_paid` recomputed as
`cash + online`, `due_amount` recomputed as `total_fee - amount_paid`. -/
def sameRowUpd (history : HistoryRow) (amt : Int) (pm : String) : HistoryRow :=
  let new_cash := if pm = "cash" then history.cash + amt else history.cash
  let new_online := if pm = "online" then history.online + amt else history.online
  { history with
    cash := new_cash
    online := new_online
    amount_paid := new_cash + new_online
    due_amount := history.total_fee - (new_cash + new_online) }

/-- The database state committed by the same-month branch: the four money
columns of the targeted row and of the student snapshot both overwritten
with the recomputed values. -/
def sameCommit (db : DB) (historyId : Nat) (history : HistoryRow)
    (amt : Int) (pm : String) : DB :=
  let u := sameRowUpd history amt pm
  { history := db.history.map (fun r =>
      if r.id = historyId then
        { r with cash := u.cash, online := u.online,
                 amount_paid := u.amount_paid, due_amount := u.due_amount }
      else r)
    students := db.students.map (fun s =>
      if s.id = history.student_id then
        { s with cash := u.cash, online := u.online,
                 amount_paid := u.amount_paid, due_amount := u.due_amount }
      else s) }

/-- The same-month branch of the `PUT` handler (`isSameMonth`): reject if the
recomputed due would be negative, else rewrite the row and mirror its four
money columns onto the student snapshot; the rewritten row is the one
returned. -/
def sameBranch (db : DB) (historyId : Nat) (history : HistoryRow)
    (amt : Int) (pm : String) : PutResult × DB :=
  if (sameRowUpd history amt pm).due_amount < 0 then
    (.badRequest "Payment exceeds due amount", db)
  else
    (.ok (sameRowUpd history amt pm), sameCommit db historyId history amt pm)

/-- The `PUT /collections/:historyId` handler: validate the payment amount and
method, fetch the history row and its student (404 if absent), then dispatch
on whether the row's month is the current month. Every rollback path returns
the database unchanged. -/
def putPayment (db : DB) (now : YearMonth) (newId historyId : Nat)
    (payment_amount : Option Int) (payment_method : String) : PutResult × DB :=
  match payment_amount with
  | none => (.badRequest "Invalid payment_amount", db)
  | some amt =>
    if amt ≤ 0 then (.badRequest "Invalid payment_amount", db)
    else if ¬ (payment_method = "cash" ∨ payment_method = "online") then
      (.badRequest "Invalid payment_method", db)
    else
      match findHistory db historyId with
      | none => (.notFound "History record not found", db)
      | some history =>
        match findStudent db history.student_id with
        | none => (.notFound "Student not found for this history record", db)
        | some student =>
          if history.changed_at ≠ now then
            prevBranch db now newId historyId history student amt payment_method
          else
            sameBranch db historyId history amt payment_method

/-- Outcome of the `DELETE /collections/:historyId` handler. -/
inductive DeleteResult where
  | badRequest (msg : String)
  | notFound (msg : String)
  | ok (msg : String)
deriving DecidableEq

/-- The `DELETE /collections/:historyId` handler: 400 on an unparseable id
(`isNaN(parseInt(...))` modelled as `none`), 404 when no row has the id, else
delete the matching rows from `student_membership_history` only. -/
def deleteCollection (db : DB) (historyId : Option Nat) : DeleteResult × DB :=
  match historyId with
  | none => (.badRequest "Invalid history ID", db)
  | some hid =>
    match findHistory db hid with
    | none => (.notFound "Collection record not found", db)
    | some _ =>
      (.ok "Collection record deleted successfully",
       { db with history := db.history.filter (fun r => ¬ r.id = hid) })

/-- The ledger equation of the spec, as a boolean on a history row. -/
def rowBalanced (r : HistoryRow) : Bool :=
  r.amount_paid + r.due_amount == r.total_fee

/-- Mapping a function that preserves the tested predicate commutes with
`find?`. -/
theorem find?_map_comm {α : Type} (f : α → α) (p : α → Bool)
    (hp : ∀ x, p (f x) = p x) (l : List α) :
    (l.map f).find? p = (l.find? p).map f := by
  induction l with
  | nil => rfl
  | cons a t ih =>
    by_cases h : p a = true
    · rw [List.map_cons, List.find?_cons_of_pos _ (by rw [hp]; exact h),
        List.find?_cons_of_pos _ h]
      rfl
    · rw [List.map_cons, List.find?_cons_of_neg _ (by rw [hp]; simpa using h),
        List.find?_cons_of_neg _ (by simpa using h), ih]

/-- Inversion of a committed previous-month branch. -/
theorem prevBranch_ok {db : DB} {now : YearMonth} {newId historyId : Nat}
    {history : HistoryRow} {student : Student} {amt : Int} {pm : String}
    {r : HistoryRow} {db' : DB}
    (h : prevBranch db now newId historyId history student amt pm = (.ok r, db')) :
    amt ≤ history.due_amount ∧ r = prevNewRow now newId history amt pm ∧
    db' = prevCommit db now newId historyId history student amt pm := by
  unfold prevBranch at h
  split at h
  · simp at h
  next hdue =>
    injection h with h1 h2
    injection h1 with h1
    exact ⟨by omega, h1.symm, h2.symm⟩

/-- Inversion of a committed same-month branch. -/
theorem sameBranch_ok {db : DB} {historyId : Nat} {history : HistoryRow}
    {amt : Int} {pm : String} {r : HistoryRow} {db' : DB}
    (h : sameBranch db historyId history amt pm = (.ok r, db')) :
    0 ≤ (sameRowUpd history amt pm).due_amount ∧
    r = sameRowUpd history amt pm ∧
    db' = sameCommit db historyId history amt pm := by
  unfold sameBranch at h
  split at h
  · simp at h
  next hdue =>
    injection h with h1 h2
    injection h1 with h1
    exact ⟨by omega, h1.symm, h2.symm⟩

/-- A previous-month branch that did not commit leaves the database as it
was (the `ROLLBACK`). -/
theorem prevBranch_rollback {db : DB} {now : YearMonth} {newId historyId : Nat}
    {history : HistoryRow} {student : Student} {amt : Int} {pm : String}
    {res : PutResult} {db' : DB}
    (h : prevBranch db now newId historyId history student amt pm = (res, db'))
    (hres : res.isOk = false) : db' = db := by
  unfold prevBranch at h
  split at h
  · injection h with h1 h2
    exact h2.symm
  · injection h with h1 h2
    subst h1
    simp [PutResult.isOk] at hres

/-- A same-month branch that did not commit leaves the database as it was
(the `ROLLBACK`). -/
theorem sameBranch_rollback {db : DB} {historyId : Nat} {history : HistoryRow}
    {amt : Int} {pm : String} {res : PutResult} {db' : DB}
    (h : sameBranch db historyId history amt pm = (res, db'))
    (hres : res.isOk = false) : db' = db := by
  unfold sameBranch at h
  split at h
  · injection h with h1 h2
    exact h2.symm
  · injection h with h1 h2
    subst h1
    simp [PutResult.isOk] at hres

/-- Inversion of a committed `PUT`: the inputs passed validation, both rows
were found, and one of the two branches produced the result. -/
theorem putPayment_ok {db : DB} {now : YearMonth} {newId historyId : Nat}
    {pa : Option Int} {pm : String} {r : HistoryRow} {db' : DB}
    (h : putPayment db now newId historyId pa pm = (.ok r, db')) :
    ∃ amt history student,
      pa = some amt ∧ 0 < amt ∧ (pm = "cash" ∨ pm = "online") ∧
      findHistory db historyId = some history ∧
      findStudent db history.student_id = some student ∧
      ((history.changed_at ≠ now ∧
        prevBranch db now newId historyId history student amt pm = (.ok r, db')) ∨
       (history.changed_at = now ∧
        sameBranch db historyId history amt pm = (.ok r, db'))) := by
  unfold putPayment at h
  split at h
  · simp at h
  next amt =>
    split at h
    · simp at h
    next hpos =>
      split at h
      · simp at h
      next hmeth =>
        split at h
        · simp at h
        next history hfind =>
          split at h
          · simp at h
          next student hstu =>
            split at h
            next hne =>
              exact ⟨amt, history, student, rfl, by omega, not_not.mp hmeth,
                hfind, hstu, Or.inl ⟨hne, h⟩⟩
            next hsame =>
              exact ⟨amt, history, student, rfl, by omega, not_not.mp hmeth,
                hfind, hstu, Or.inr ⟨not_not.mp hsame, h⟩⟩

/-- Every snapshot row carrying the paid student's id holds, after a
same-month commit, exactly the four recomputed money values. -/
theorem mem_students_sameCommit {db : DB} {historyId : Nat}
    {history : HistoryRow} {amt : Int} {pm : String} {s : Student}
    (hs : s ∈ (sameCommit db historyId history amt pm).students)
    (hsid : s.id = history.student_id) :
    s.cash = (sameRowUpd history amt pm).cash ∧
    s.online = (sameRowUpd history amt pm).online ∧
    s.amount_paid = (sameRowUpd history amt pm).amount_paid ∧
    s.due_amount = (sameRowUpd history amt pm).due_amount := by
  unfold sameCommit at hs
  simp only [List.mem_map] at hs
  obtain ⟨x, hx, rfl⟩ := hs
  by_cases hxid : x.id = history.student_id
  · simp [hxid]
  · simp [hxid] at hsid

/-- Every snapshot row carrying the paid student's id holds, after a
previous-month commit, exactly the four incremented money values computed
from the fetched student row. -/
theorem mem_students_prevCommit {db : DB} {now : YearMonth}
    {newId historyId : Nat} {history : HistoryRow} {student : Student}
    {amt : Int} {pm : String} {s : Student}
    (hs : s ∈ (prevCommit db now newId historyId history student amt pm).students)
    (hsid : s.id = history.student_id) :
    s.cash = student.cash + incCash pm amt ∧
    s.online = student.online + incOnline pm amt ∧
    s.amount_paid = student.amount_paid + amt ∧
    s.due_amount = mathMax (student.due_amount - amt) 0 := by
  unfold prevCommit at hs
  simp only [List.mem_map] at hs
  obtain ⟨x, hx, rfl⟩ := hs
  by_cases hxid : x.id = history.student_id
  · simp [hxid, prevStudentUpd]
  · simp [hxid] at hsid

/-- Looking the paid student up after a previous-month commit returns the
incremented snapshot. -/
theorem findStudent_prevCommit {db : DB} {now : YearMonth}
    {newId historyId : Nat} {history : HistoryRow} {student : Student}
    {amt : Int} {pm : String}
    (hstu : findStudent db history.student_id = some student) :
    findStudent (prevCommit db now newId historyId history student amt pm)
        history.student_id = some (prevStudentUpd student amt pm) := by
  have hid : (student.id == history.student_id) = true := by
    have := List.find?_some hstu
    simpa using this
  unfold findStudent prevCommit at *
  rw [find?_map_comm _ _ (fun x => by by_cases hx : x.id = history.student_id <;> simp [hx])]
  rw [hstu]
  have hid' : student.id = history.student_id := by simpa using hid
  simp [hid', prevStudentUpd]

/-- Looking any student up after a same-month commit returns the old
snapshot with the four money columns overwritten when the id matches. -/
theorem findStudent_sameCommit {db : DB} {historyId : Nat}
    {history : HistoryRow} {student : Student} {amt : Int} {pm : String}
    (hstu : findStudent db history.student_id = some student) :
    findStudent (sameCommit db historyId history amt pm) history.student_id
      = some { student with
          cash := (sameRowUpd history amt pm).cash
          online := (sameRowUpd history amt pm).online
          amount_paid := (sameRowUpd history amt pm).amount_paid
          due_amount := (sameRowUpd history amt pm).due_amount } := by
  have hid : (student.id == history.student_id) = true := by
    have := List.find?_some hstu
    simpa using this
  unfold findStudent sameCommit at *
  rw [find?_map_comm _ _ (fun x => by by_cases hx : x.id = history.student_id <;> simp [hx])]
  rw [hstu]
  have hid' : student.id = history.student_id := by simpa using hid
  simp [hid']

/-- A `PUT` that did not respond 200 leaves the database exactly as it was:
every rollback path is effect-free. -/
theorem putPayment_rollback {db : DB} {now : YearMonth} {newId historyId : Nat}
    {pa : Option Int} {pm : String} {res : PutResult} {db' : DB}
    (h : putPayment db now newId historyId pa pm = (res, db'))
    (hres : res.isOk = false) : db' = db := by
  unfold putPayment at h
  split at h
  · injection h with h1 h2; exact h2.symm
  next amt =>
    split at h
    · injection h with h1 h2; exact h2.symm
    split at h
    · injection h with h1 h2; exact h2.symm
    split at h
    · injection h with h1 h2; exact h2.symm
    next history hfind =>
      split at h
      · injection h with h1 h2; exact h2.symm
      next student hstu =>
        split at h
        · exact prevBranch_rollback h hres
        · exact sameBranch_rollback h hres

/-- Projection form of the rollback property: whenever the response is not a
200, the database after the call equals the database before it. -/
theorem putPayment_frame {db : DB} {now : YearMonth} {newId historyId : Nat}
    {pa : Option Int} {pm : String}
    (hres : (putPayment db now newId historyId pa pm).1.isOk = false) :
    (putPayment db now newId historyId pa pm).2 = db := by
  have h : putPayment db now newId historyId pa pm =
      ((putPayment db now newId historyId pa pm).1,
       (putPayment db now newId historyId pa pm).2) := rfl
  exact putPayment_rollback h hres

/-- A 200 response is exactly an `ok` result. -/
theorem PutResult.isOk_iff {res : PutResult} : res.isOk = true ↔ ∃ r, res = .ok r := by
  cases res <;> simp [PutResult.isOk]

/-! Concrete states used by the counterexamples and witnesses. -/

/-- The current month of the concrete examples. -/
def exNow : YearMonth := ⟨2025, 10⟩

/-- A month strictly before `exNow`. -/
def exPrev : YearMonth := ⟨2025, 9⟩

/-- A student snapshot consistent with `exRowPrev`. -/
def exStu : Student :=
  { id := 1, total_fee := 100, amount_paid := 60, due_amount := 40, cash := 60, online := 0 }

/-- A September history row with an outstanding due of 40. -/
def exRowPrev : HistoryRow :=
  { id := 1, student_id := 1, total_fee := 100, amount_paid := 60, due_amount := 40,
    cash := 60, online := 0, changed_at := exPrev }

/-- Database holding one previous-month row and its student. -/
def exDBprev : DB := { history := [exRowPrev], students := [exStu] }

/-- Outcome of paying 10 by cash against the previous-month row. -/
def exPrevPut : PutResult × DB := putPayment exDBprev exNow 99 1 (some 10) "cash"

/-- The history row returned by that previous-month payment. -/
def exPrevRes : HistoryRow := (exPrevPut.1.row?).getD {}

/-- The database after that previous-month payment. -/
def exPrevDB2 : DB := exPrevPut.2

/-- An October history row with an outstanding due of 40, consistent. -/
def exRowSame : HistoryRow :=
  { id := 1, student_id := 1, total_fee := 100, amount_paid := 60, due_amount := 40,
    cash := 60, online := 0, changed_at := exNow }

/-- Database holding one current-month row and its student. -/
def exDBsame : DB := { history := [exRowSame], students := [exStu] }

/-- Outcome of paying 10 by cash against the current-month row. -/
def exSamePut : PutResult × DB := putPayment exDBsame exNow 99 1 (some 10) "cash"

/-- The history row returned by that same-month payment. -/
def exSameRes : HistoryRow := (exSamePut.1.row?).getD {}

/-- The database after that same-month payment. -/
def exSameDB2 : DB := exSamePut.2

/-- A current-month row whose stored `due_amount` (5) is smaller than
`total_fee - cash - online` (100): the same-month guard consults the
latter, so a payment of 10 is accepted although it exceeds the stored due. -/
def exRowGap : HistoryRow :=
  { id := 1, student_id := 1, total_fee := 100, amount_paid := 95, due_amount := 5,
    cash := 0, online := 0, changed_at := exNow }

/-- Database holding the inconsistent current-month row. -/
def exDBgap : DB := { history := [exRowGap], students := [exStu] }

/-- A current-month row whose stored `amount_paid` (5) differs from
`cash + online` (0): the same-month branch recomputes `amount_paid` as
`cash + online + payment`, discarding the stored value. -/
def exRowStale : HistoryRow :=
  { id := 1, student_id := 1, total_fee := 10, amount_paid := 5, due_amount := 9,
    cash := 0, online := 0, changed_at := exNow }

/-- Database holding the stale-totals current-month row. -/
def exDBstale : DB := { history := [exRowStale], students := [exStu] }

/-! Claim C1. -/

/-- C1 is false as stated: after the successful previous-month payment of 10
against `exRowPrev`, the history row that is current after the operation (the
newly inserted one, which the endpoint returns) has `amount_paid = 10`,
`due_amount = 0` but `total_fee = 0`, so `amountPaid + dueAmount = totalFee`
fails on it. -/
theorem C1_counterexample :
    (putPayment exDBprev exNow 99 1 (some 10) "cash").1.row?.map rowBalanced
      = some false := by decide

/-- C1 (amended): the ledger equation `amountPaid + dueAmount = totalFee` is
established by a successful same-month payment update, both on the updated
history row and on the paid student's snapshot (whose sum equals the row's
`totalFee`); the previous-month branch instead returns an inserted row with
`totalFee = 0` but `amountPaid` equal to the payment, on which the equation
fails. -/
theorem C1_same_month_ledger_invariant
    {db db' : DB} {now : YearMonth} {newId historyId : Nat} {amt : Int}
    {pm : String} {r row : HistoryRow}
    (hput : putPayment db now newId historyId (some amt) pm = (.ok r, db'))
    (hfind : findHistory db historyId = some row)
    (hsame : row.changed_at = now) :
    r.amount_paid + r.due_amount = r.total_fee ∧
    ∀ s ∈ db'.students, s.id = r.student_id →
      s.amount_paid + s.due_amount = r.total_fee := by
  obtain ⟨amt', history, student, hpa, hpos, hmeth, hfind', hstu, hbr⟩ :=
    putPayment_ok hput
  injection hpa with hpa
  subst hpa
  rw [hfind] at hfind'
  injection hfind' with hh
  subst hh
  rcases hbr with ⟨hne, _⟩ | ⟨_, hsb⟩
  · exact absurd hsame hne
  · obtain ⟨hdue, hr, hdb⟩ := sameBranch_ok hsb
    subst hr
    subst hdb
    constructor
    · simp [sameRowUpd]
    · intro s hs hsid
      have hsid' : s.id = row.student_id := by simpa [sameRowUpd] using hsid
      obtain ⟨h1, h2, h3, h4⟩ := mem_students_sameCommit hs hsid'
      rw [h3, h4]
      simp [sameRowUpd]

/-- C1 witness: the amended theorem applied to the concrete same-month
payment of 10 against `exRowSame`. -/
theorem C1_witness :
    exSameRes.amount_paid + exSameRes.due_amount = exSameRes.total_fee ∧
    ∀ s ∈ exSameDB2.students, s.id = exSameRes.student_id →
      s.amount_paid + s.due_amount = exSameRes.total_fee :=
  C1_same_month_ledger_invariant
    (show putPayment exDBsame exNow 99 1 (some 10) "cash" = (.ok exSameRes, exSameDB2) from rfl)
    (show findHistory exDBsame 1 = some exRowSame from rfl)
    (show exRowSame.changed_at = exNow from rfl)

/-! Claim C2. -/

/-- C2 is false as stated: against `exRowGap` (stored due 5, current month)
the payment of 10 exceeds the stored `dueAmount` yet the request succeeds,
because the same-month guard checks `totalFee - cash - online - payment < 0`
rather than the stored due. -/
theorem C2_counterexample :
    exRowGap.due_amount < 10 ∧
    (putPayment exDBgap exNow 99 1 (some 10) "cash").1.isOk = true := by decide

/-- C2 (amended): when the targeted row's stored due agrees with its fee
columns (`dueAmount = totalFee - cash - online`), every payment exceeding the
stored due is rejected (non-200) and the database is left untouched, in both
the same-month and the previous-month branch. -/
theorem C2_reject_exceeding_due
    {db : DB} {now : YearMonth} {newId historyId : Nat} {amt : Int} {pm : String}
    {row : HistoryRow}
    (hfind : findHistory db historyId = some row)
    (hcons : row.due_amount = row.total_fee - (row.cash + row.online))
    (hexceed : row.due_amount < amt) :
    (putPayment db now newId historyId (some amt) pm).1.isOk = false ∧
    (putPayment db now newId historyId (some amt) pm).2 = db := by
  have key : ∀ res db₂, putPayment db now newId historyId (some amt) pm = (res, db₂) →
      res.isOk = false := by
    intro res db₂ hput
    by_contra hok
    rw [Bool.not_eq_false] at hok
    obtain ⟨r, rfl⟩ := PutResult.isOk_iff.mp hok
    obtain ⟨amt', history, student, hpa, hpos, hmeth, hfind', hstu, hbr⟩ :=
      putPayment_ok hput
    injection hpa with hpa
    subst hpa
    rw [hfind] at hfind'
    injection hfind' with hh
    subst hh
    rcases hbr with ⟨hne, hpb⟩ | ⟨hsame, hsb⟩
    · obtain ⟨hle, _, _⟩ := prevBranch_ok hpb
      omega
    · obtain ⟨hge, _, _⟩ := sameBranch_ok hsb
      rcases hmeth with hpm | hpm <;> subst hpm <;> simp [sameRowUpd] at hge <;> omega
  have h1 : (putPayment db now newId historyId (some amt) pm).1.isOk = false := by
    apply key
    rfl
  exact ⟨h1, putPayment_frame h1⟩

/-- C2 witness: the amended theorem applied to the concrete previous-month
row with due 40 and a payment of 50. -/
theorem C2_witness :
    (putPayment exDBprev exNow 99 1 (some 50) "cash").1.isOk = false ∧
    (putPayment exDBprev exNow 99 1 (some 50) "cash").2 = exDBprev :=
  C2_reject_exceeding_due
    (show findHistory exDBprev 1 = some exRowPrev from rfl)
    (by decide) (by decide)

/-! Claim C3. -/

/-- C3 is false as stated: against `exRowStale` (stored `amount_paid = 5`,
`cash = online = 0`, current month) an accepted payment of 2 produces a row
with `amount_paid = 2`, not `5 + 2`: the branch recomputes `amount_paid` as
`cash + online + payment` instead of incrementing it. -/
theorem C3_counterexample :
    (putPayment exDBstale exNow 99 1 (some 2) "cash").1.row?.map
        (fun r => r.amount_paid) = some 2 ∧
    exRowStale.amount_paid + 2 ≠ 2 := by decide

/-- C3 (amended): for a same-month payment accepted against a row whose
stored totals are consistent (`amount_paid = cash + online` and `dueAmount =
totalFee - amountPaid`), the row's due becomes `D - A`, its `amount_paid`
grows by exactly `A`, the matching cash/online column grows by `A` with the
other one untouched, and the snapshot's four money columns are set to the
updated row's values. -/
theorem C3_same_month_payment
    {db db' : DB} {now : YearMonth} {newId historyId : Nat} {amt : Int}
    {pm : String} {r row : HistoryRow}
    (hput : putPayment db now newId historyId (some amt) pm = (.ok r, db'))
    (hfind : findHistory db historyId = some row)
    (hsame : row.changed_at = now)
    (hpaid : row.amount_paid = row.cash + row.online)
    (hdue : row.due_amount = row.total_fee - row.amount_paid) :
    r.due_amount = row.due_amount - amt ∧
    r.amount_paid = row.amount_paid + amt ∧
    (pm = "cash" → r.cash = row.cash + amt ∧ r.online = row.online) ∧
    (pm = "online" → r.online = row.online + amt ∧ r.cash = row.cash) ∧
    ∀ s ∈ db'.students, s.id = r.student_id →
      s.cash = r.cash ∧ s.online = r.online ∧
      s.amount_paid = r.amount_paid ∧ s.due_amount = r.due_amount := by
  obtain ⟨amt', history, student, hpa, hpos, hmeth, hfind', hstu, hbr⟩ :=
    putPayment_ok hput
  injection hpa with hpa
  subst hpa
  rw [hfind] at hfind'
  injection hfind' with hh
  subst hh
  rcases hbr with ⟨hne, _⟩ | ⟨_, hsb⟩
  · exact absurd hsame hne
  · obtain ⟨hge, hr, hdb⟩ := sameBranch_ok hsb
    subst hr
    subst hdb
    refine ⟨?_, ?_, ?_, ?_, ?_⟩
    · rcases hmeth with hpm | hpm <;> subst hpm <;> simp [sameRowUpd] <;> omega
    · rcases hmeth with hpm | hpm <;> subst hpm <;> simp [sameRowUpd] <;> omega
    · intro hpm
      subst hpm
      constructor <;> simp [sameRowUpd]
    · intro hpm
      subst hpm
      constructor <;> simp [sameRowUpd]
    · intro s hs hsid
      have hsid' : s.id = row.student_id := by simpa [sameRowUpd] using hsid
      exact mem_students_sameCommit hs hsid'

/-- C3 witness: the amended theorem applied to the concrete same-month
payment of 10 against the consistent row `exRowSame`. -/
theorem C3_witness :
    exSameRes.due_amount = exRowSame.due_amount - 10 ∧
    exSameRes.amount_paid = exRowSame.amount_paid + 10 ∧
    ("cash" = "cash" → exSameRes.cash = exRowSame.cash + 10 ∧
      exSameRes.online = exRowSame.online) ∧
    ("cash" = "online" → exSameRes.online = exRowSame.online + 10 ∧
      exSameRes.cash = exRowSame.cash) ∧
    ∀ s ∈ exSameDB2.students, s.id = exSameRes.student_id →
      s.cash = exSameRes.cash ∧ s.online = exSameRes.online ∧
      s.amount_paid = exSameRes.amount_paid ∧ s.due_amount = exSameRes.due_amount :=
  C3_same_month_payment
    (show putPayment exDBsame exNow 99 1 (some 10) "cash" = (.ok exSameRes, exSameDB2) from rfl)
    (show findHistory exDBsame 1 = some exRowSame from rfl)
    (show exRowSame.changed_at = exNow from rfl)
    (by decide) (by decide)

/-! Claim C4. -/

/-- C4: an accepted previous-month payment of `amt` appends exactly one new
history row — dated `now`, with `total_fee = 0`, `amount_paid = amt`,
`due_amount = 0`, `prev_due_paid = true`, `source_month` the original row's
month, the amount in the cash/online column matching the method, and the
seat/shift/branch/identity columns carried over — and that row is the one
the endpoint returns. -/
theorem C4_prev_month_insert
    {db db' : DB} {now : YearMonth} {newId historyId : Nat} {amt : Int}
    {pm : String} {r row : HistoryRow}
    (hput : putPayment db now newId historyId (some amt) pm = (.ok r, db'))
    (hfind : findHistory db historyId = some row)
    (hprev : row.changed_at ≠ now) :
    r.total_fee = 0 ∧ r.amount_paid = amt ∧ r.due_amount = 0 ∧
    r.prev_due_paid = true ∧ r.changed_at = now ∧
    r.source_month = some row.changed_at ∧
    r.cash = incCash pm amt ∧ r.online = incOnline pm amt ∧
    r.security_money = 0 ∧ r.remark = "Previous month due paid" ∧
    r.id = newId ∧ r.student_id = row.student_id ∧ r.name = row.name ∧
    r.seat_id = row.seat_id ∧ r.shift_id = row.shift_id ∧
    r.branch_id = row.branch_id ∧
    r.registration_number = row.registration_number ∧
    r.father_name = row.father_name ∧ r.aadhar_number = row.aadhar_number ∧
    r.locker_id = row.locker_id ∧
    db'.history =
      (db.history.map (fun x =>
        if x.id = historyId then { x with due_amount := row.due_amount - amt } else x))
      ++ [r] := by
  obtain ⟨amt', history, student, hpa, hpos, hmeth, hfind', hstu, hbr⟩ :=
    putPayment_ok hput
  injection hpa with hpa
  subst hpa
  rw [hfind] at hfind'
  injection hfind' with hh
  subst hh
  rcases hbr with ⟨_, hpb⟩ | ⟨hsame, _⟩
  · obtain ⟨hle, hr, hdb⟩ := prevBranch_ok hpb
    subst hr
    subst hdb
    exact ⟨rfl, rfl, rfl, rfl, rfl, rfl, rfl, rfl, rfl, rfl, rfl, rfl, rfl,
      rfl, rfl, rfl, rfl, rfl, rfl, rfl, rfl⟩
  · exact absurd hsame hprev

/-- C4 witness: the theorem applied to the concrete previous-month payment
of 10 by cash against `exRowPrev`. -/
theorem C4_witness :
    exPrevRes.total_fee = 0 ∧ exPrevRes.amount_paid = 10 ∧
    exPrevRes.due_amount = 0 ∧ exPrevRes.prev_due_paid = true ∧
    exPrevRes.changed_at = exNow ∧
    exPrevRes.source_month = some exRowPrev.changed_at ∧
    exPrevRes.cash = incCash "cash" 10 ∧ exPrevRes.online = incOnline "cash" 10 ∧
    exPrevRes.security_money = 0 ∧ exPrevRes.remark = "Previous month due paid" ∧
    exPrevRes.id = 99 ∧ exPrevRes.student_id = exRowPrev.student_id ∧
    exPrevRes.name = exRowPrev.name ∧
    exPrevRes.seat_id = exRowPrev.seat_id ∧
    exPrevRes.shift_id = exRowPrev.shift_id ∧
    exPrevRes.branch_id = exRowPrev.branch_id ∧
    exPrevRes.registration_number = exRowPrev.registration_number ∧
    exPrevRes.father_name = exRowPrev.father_name ∧
    exPrevRes.aadhar_number = exRowPrev.aadhar_number ∧
    exPrevRes.locker_id = exRowPrev.locker_id ∧
    exPrevDB2.history =
      (exDBprev.history.map (fun x =>
        if x.id = 1 then { x with due_amount := exRowPrev.due_amount - 10 } else x))
      ++ [exPrevRes] :=
  C4_prev_month_insert
    (show putPayment exDBprev exNow 99 1 (some 10) "cash" = (.ok exPrevRes, exPrevDB2) from rfl)
    (show findHistory exDBprev 1 = some exRowPrev from rfl)
    (by decide)

/-! Claim C5. -/

/-- C5: an accepted previous-month payment rewrites the history table by
replacing every row carrying the targeted id with a copy whose `due_amount`
alone is decremented by the payment (all other columns untouched), appending
the new flagged row, and leaving every other row exactly in place; in
particular the fetched original row reappears with only its due changed. -/
theorem C5_prev_month_frame
    {db db' : DB} {now : YearMonth} {newId historyId : Nat} {amt : Int}
    {pm : String} {r row : HistoryRow}
    (hput : putPayment db now newId historyId (some amt) pm = (.ok r, db'))
    (hfind : findHistory db historyId = some row)
    (hprev : row.changed_at ≠ now) :
    db'.history =
      (db.history.map (fun x =>
        if x.id = historyId then { x with due_amount := row.due_amount - amt } else x))
      ++ [r] ∧
    { row with due_amount := row.due_amount - amt } ∈ db'.history ∧
    ∀ x ∈ db.history, ¬ x.id = historyId → x ∈ db'.history := by
  obtain ⟨amt', history, student, hpa, hpos, hmeth, hfind', hstu, hbr⟩ :=
    putPayment_ok hput
  injection hpa with hpa
  subst hpa
  rw [hfind] at hfind'
  injection hfind' with hh
  subst hh
  rcases hbr with ⟨_, hpb⟩ | ⟨hsame, _⟩
  · obtain ⟨hle, hr, hdb⟩ := prevBranch_ok hpb
    subst hr
    subst hdb
    refine ⟨rfl, ?_, ?_⟩
    · have hmem : row ∈ db.history := by
        have := List.mem_of_find?_eq_some hfind
        exact this
      have hid : row.id = historyId := by
        have := List.find?_some hfind
        simpa using this
      apply List.mem_append_left
      have : (fun x =>
          if x.id = historyId then { x with due_amount := row.due_amount - amt } else x) row
          = { row with due_amount := row.due_amount - amt } := by
        simp [hid]
      rw [show ({ row with due_amount := row.due_amount - amt } : HistoryRow)
          = (fun x => if x.id = historyId
              then { x with due_amount := row.due_amount - amt } else x) row from this.symm]
      exact List.mem_map_of_mem _ hmem
    · intro x hx hxid
      apply List.mem_append_left
      have : (fun y =>
          if y.id = historyId then { y with due_amount := row.due_amount - amt } else y) x
          = x := by
        simp [hxid]
      rw [show x = (fun y => if y.id = historyId
            then { y with due_amount := row.due_amount - amt } else y) x from this.symm]
      exact List.mem_map_of_mem _ hx
  · exact absurd hsame hprev

/-- C5 witness: the frame theorem applied to the concrete previous-month
payment of 10 by cash against `exRowPrev`. -/
theorem C5_witness :
    exPrevDB2.history =
      (exDBprev.history.map (fun x =>
        if x.id = 1 then { x with due_amount := exRowPrev.due_amount - 10 } else x))
      ++ [exPrevRes] ∧
    { exRowPrev with due_amount := exRowPrev.due_amount - 10 } ∈ exPrevDB2.history ∧
    ∀ x ∈ exDBprev.history, ¬ x.id = 1 → x ∈ exPrevDB2.history :=
  C5_prev_month_frame
    (show putPayment exDBprev exNow 99 1 (some 10) "cash" = (.ok exPrevRes, exPrevDB2) from rfl)
    (show findHistory exDBprev 1 = some exRowPrev from rfl)
    (by decide)

/-! Claim C6. -/

/-- A pending request against the `PUT` endpoint. -/
structure PayReq where
  newId : Nat
  historyId : Nat
  amount : Int
  method : String
deriving DecidableEq

/-- `PrevPaySeq now sid db ps db'`: applying the requests `ps` in order from
`db` ends in `db'`, every request commits, and every request targets a
previous-month history row of student `sid`. -/
inductive PrevPaySeq (now : YearMonth) (sid : Nat) : DB → List PayReq → DB → Prop
  | nil (db : DB) : PrevPaySeq now sid db [] db
  | cons (db db₁ db₂ : DB) (p : PayReq) (ps : List PayReq) (r row : HistoryRow) :
      findHistory db p.historyId = some row →
      row.student_id = sid →
      row.changed_at ≠ now →
      putPayment db now p.newId p.historyId (some p.amount) p.method = (.ok r, db₁) →
      PrevPaySeq now sid db₁ ps db₂ →
      PrevPaySeq now sid db (p :: ps) db₂

/-- Sum of the amounts of a request list. -/
def totalAmount (ps : List PayReq) : Int := (ps.map (fun p => p.amount)).sum

/-- Sum of the amounts of the requests using the given method. -/
def totalByMethod (m : String) (ps : List PayReq) : Int :=
  ((ps.filter (fun p => p.method == m)).map (fun p => p.amount)).sum

/-- Unfolding `totalByMethod` over a head request. -/
theorem totalByMethod_cons (m : String) (p : PayReq) (ps : List PayReq) :
    totalByMethod m (p :: ps) =
      (if p.method = m then p.amount else 0) + totalByMethod m ps := by
  by_cases h : p.method = m <;> simp [totalByMethod, List.filter_cons, h]

/-- One accepted previous-month payment turns the paid student's snapshot
into exactly the incremented snapshot `prevStudentUpd`. -/
theorem putPayment_prev_snapshot
    {db db' : DB} {now : YearMonth} {newId historyId : Nat} {amt : Int}
    {pm : String} {r row : HistoryRow} {student : Student}
    (hput : putPayment db now newId historyId (some amt) pm = (.ok r, db'))
    (hfind : findHistory db historyId = some row)
    (hprev : row.changed_at ≠ now)
    (hstu : findStudent db row.student_id = some student) :
    findStudent db' row.student_id = some (prevStudentUpd student amt pm) := by
  obtain ⟨amt', history, student', hpa, hpos, hmeth, hfind', hstu', hbr⟩ :=
    putPayment_ok hput
  injection hpa with hpa
  subst hpa
  rw [hfind] at hfind'
  injection hfind' with hh
  subst hh
  rw [hstu] at hstu'
  injection hstu' with hs
  subst hs
  rcases hbr with ⟨_, hpb⟩ | ⟨hsame, _⟩
  · obtain ⟨_, _, hdb⟩ := prevBranch_ok hpb
    subst hdb
    exact findStudent_prevCommit hstu
  · exact absurd hsame hprev

/-- A student snapshot whose totals do not match the current-month row
(amount_paid 100 where the row has cash + online = 0). -/
def exStuRich : Student :=
  { id := 1, total_fee := 0, amount_paid := 100, due_amount := 0, cash := 50, online := 50 }

/-- A consistent current-month row with nothing collected yet. -/
def exRowFresh : HistoryRow :=
  { id := 1, student_id := 1, total_fee := 50, amount_paid := 0, due_amount := 50,
    cash := 0, online := 0, changed_at := exNow }

/-- Database pairing the fresh current-month row with the rich snapshot. -/
def exDBmix : DB := { history := [exRowFresh], students := [exStuRich] }

/-- C6 is false as stated: after the single accepted same-month payment of
10, the snapshot's `amount_paid` is 10, not its initial value 100 plus the
payment — the same-month branch overwrites the snapshot totals with the
row's recomputed values instead of adding to them. -/
theorem C6_counterexample :
    (putPayment exDBmix exNow 99 1 (some 10) "cash").1.isOk = true ∧
    (findStudent (putPayment exDBmix exNow 99 1 (some 10) "cash").2 1).map
        (fun s => s.amount_paid) = some 10 ∧
    exStuRich.amount_paid + 10 ≠ 10 := by decide

/-- C6 (amended): over any sequence of accepted payments that all go through
the previous-month branch for student `sid`, the snapshot's `amount_paid`
grows by exactly the sum of the amounts, and the cash/online totals by the
per-method sums; a same-month payment instead overwrites the snapshot totals
with the targeted row's values, so the unrestricted claim fails. -/
theorem C6_prev_sequences_additive
    {now : YearMonth} {sid : Nat} {db db' : DB} {ps : List PayReq} {st : Student}
    (hseq : PrevPaySeq now sid db ps db')
    (hst : findStudent db sid = some st) :
    ∃ st', findStudent db' sid = some st' ∧
      st'.amount_paid = st.amount_paid + totalAmount ps ∧
      st'.cash = st.cash + totalByMethod "cash" ps ∧
      st'.online = st.online + totalByMethod "online" ps := by
  induction hseq generalizing st with
  | nil db =>
    exact ⟨st, hst, by simp [totalAmount], by simp [totalByMethod],
      by simp [totalByMethod]⟩
  | cons db db₁ db₂ p ps r row hfind hsid hprev hput hrest ih =>
    have hst' : findStudent db row.student_id = some st := by
      rw [hsid]; exact hst
    have hstep := putPayment_prev_snapshot hput hfind hprev hst'
    rw [hsid] at hstep
    obtain ⟨st', hfind', hpaid, hcash, honline⟩ := ih hstep
    refine ⟨st', hfind', ?_, ?_, ?_⟩
    · rw [hpaid]
      simp [prevStudentUpd, totalAmount]
      ring
    · rw [hcash, totalByMethod_cons]
      simp [prevStudentUpd, incCash]
      ring
    · rw [honline, totalByMethod_cons]
      simp [prevStudentUpd, incOnline]
      ring

/-- The concrete one-request sequence used by the C6 witness. -/
def exReq : PayReq := { newId := 99, historyId := 1, amount := 10, method := "cash" }

/-- C6 witness: the amended theorem applied to the one-payment
previous-month sequence `[exReq]` from `exDBprev`. -/
theorem C6_witness :
    ∃ st', findStudent exPrevDB2 1 = some st' ∧
      st'.amount_paid = exStu.amount_paid + totalAmount [exReq] ∧
      st'.cash = exStu.cash + totalByMethod "cash" [exReq] ∧
      st'.online = exStu.online + totalByMethod "online" [exReq] :=
  C6_prev_sequences_additive
    (PrevPaySeq.cons exDBprev exPrevDB2 exPrevDB2 exReq [] exPrevRes exRowPrev
      (show findHistory exDBprev 1 = some exRowPrev from rfl)
      rfl
      (by decide)
      (show putPayment exDBprev exNow 99 1 (some 10) "cash"
          = (.ok exPrevRes, exPrevDB2) from rfl)
      (PrevPaySeq.nil exPrevDB2))
    (show findStudent exDBprev 1 = some exStu from rfl)

/-! Claim C7. -/

/-- C7: the handler is atomic — on every path that does not answer 200 (bad
amount or method, missing history row or student, payment exceeding the due,
i.e. every `ROLLBACK` path of the transaction) the database after the call
equals the database before it, so no partial update is ever visible; a 200
commits the whole chosen branch at once by construction of the two commit
states. -/
theorem C7_atomic_rollback
    {db : DB} {now : YearMonth} {newId historyId : Nat}
    {pa : Option Int} {pm : String}
    (h : (putPayment db now newId historyId pa pm).1.isOk = false) :
    (putPayment db now newId historyId pa pm).2 = db :=
  putPayment_frame h

/-- C7 witness: the rejected over-payment of 50 against `exRowPrev` leaves
the concrete database untouched. -/
theorem C7_witness :
    (putPayment exDBprev exNow 99 1 (some 50) "cash").2 = exDBprev :=
  C7_atomic_rollback (by decide)

/-! Claim C8. -/

/-- C8: a non-positive (or non-numeric) `payment_amount` or a method other
than cash/online yields a 400 with no mutation; a missing history record or
a missing student yields a 404 with no mutation. -/
theorem C8_validation_responses
    {db : DB} {now : YearMonth} {newId historyId : Nat}
    {pa : Option Int} {pm : String} :
    ((∀ a, pa = some a → a ≤ 0) →
      statusCode (putPayment db now newId historyId pa pm).1 = 400 ∧
      (putPayment db now newId historyId pa pm).2 = db) ∧
    (¬ (pm = "cash" ∨ pm = "online") →
      statusCode (putPayment db now newId historyId pa pm).1 = 400 ∧
      (putPayment db now newId historyId pa pm).2 = db) ∧
    ((∀ a, pa = some a → 0 < a) → pa ≠ none → (pm = "cash" ∨ pm = "online") →
      findHistory db historyId = none →
      statusCode (putPayment db now newId historyId pa pm).1 = 404 ∧
      (putPayment db now newId historyId pa pm).2 = db) ∧
    (∀ row, (∀ a, pa = some a → 0 < a) → pa ≠ none →
      (pm = "cash" ∨ pm = "online") →
      findHistory db historyId = some row →
      findStudent db row.student_id = none →
      statusCode (putPayment db now newId historyId pa pm).1 = 404 ∧
      (putPayment db now newId historyId pa pm).2 = db) := by
  refine ⟨?_, ?_, ?_, ?_⟩
  · intro h
    cases pa with
    | none => simp [putPayment, statusCode]
    | some a =>
      have ha : a ≤ 0 := h a rfl
      simp [putPayment, statusCode, ha]
  · intro h
    cases pa with
    | none => simp [putPayment, statusCode]
    | some a =>
      by_cases ha : a ≤ 0 <;> simp [putPayment, statusCode, ha, h]
  · intro hpos hne hmeth hfind
    cases pa with
    | none => exact absurd rfl hne
    | some a =>
      have ha : ¬ a ≤ 0 := by
        have := hpos a rfl
        omega
      rcases hmeth with hpm | hpm <;> subst hpm <;>
        simp [putPayment, statusCode, ha, hfind]
  · intro row hpos hne hmeth hfind hstu
    cases pa with
    | none => exact absurd rfl hne
    | some a =>
      have ha : ¬ a ≤ 0 := by
        have := hpos a rfl
        omega
      rcases hmeth with hpm | hpm <;> subst hpm <;>
        simp [putPayment, statusCode, ha, hfind, hstu]

/-- C8 witness: a non-numeric `payment_amount` against the concrete database
answers 400 and mutates nothing. -/
theorem C8_witness :
    statusCode (putPayment exDBprev exNow 99 1 none "cash").1 = 400 ∧
    (putPayment exDBprev exNow 99 1 none "cash").2 = exDBprev :=
  C8_validation_responses.1 (fun _ ha => nomatch ha)

/-! Claim C9. -/

/-- C9: no accepted payment leaves the paid student's snapshot with a
negative due: the previous-month branch clamps the decremented due at 0 and
the same-month branch writes the recomputed due its guard has just proved
non-negative. -/
theorem C9_snapshot_due_nonneg
    {db db' : DB} {now : YearMonth} {newId historyId : Nat}
    {pa : Option Int} {pm : String} {r : HistoryRow}
    (hput : putPayment db now newId historyId pa pm = (.ok r, db')) :
    ∀ s ∈ db'.students, s.id = r.student_id → 0 ≤ s.due_amount := by
  cases pa with
  | none => simp [putPayment] at hput
  | some amt =>
    obtain ⟨amt', history, student, hpa, hpos, hmeth, hfind, hstu, hbr⟩ :=
      putPayment_ok hput
    injection hpa with hpa
    subst hpa
    rcases hbr with ⟨_, hpb⟩ | ⟨_, hsb⟩
    · obtain ⟨_, hr, hdb⟩ := prevBranch_ok hpb
      subst hr
      subst hdb
      intro s hs hsid
      have hsid' : s.id = history.student_id := by
        simpa [prevNewRow] using hsid
      obtain ⟨_, _, _, h4⟩ := mem_students_prevCommit hs hsid'
      rw [h4]
      unfold mathMax
      split <;> omega
    · obtain ⟨hge, hr, hdb⟩ := sameBranch_ok hsb
      subst hr
      subst hdb
      intro s hs hsid
      have hsid' : s.id = history.student_id := by
        simpa [sameRowUpd] using hsid
      obtain ⟨_, _, _, h4⟩ := mem_students_sameCommit hs hsid'
      rw [h4]
      exact hge

/-- The concrete student snapshot after the example previous-month payment. -/
def exStuAfter : Student := (findStudent exPrevDB2 1).getD {}

/-- C9 witness: after the concrete accepted previous-month payment, the
snapshot's due is non-negative. -/
theorem C9_witness : 0 ≤ exStuAfter.due_amount :=
  C9_snapshot_due_nonneg
    (show putPayment exDBprev exNow 99 1 (some 10) "cash"
        = (.ok exPrevRes, exPrevDB2) from rfl)
    exStuAfter (by decide) (by decide)

/-! Claim C10. -/

/-- C10: the DELETE handler never touches the students table, answers 404
with no change when no history row has the given id (and is a no-op on an
unparseable id), and on success removes exactly the rows with the targeted
id from the history table, keeping every other row in place. -/
theorem C10_delete_frame (db : DB) (pid : Option Nat) :
    (deleteCollection db pid).2.students = db.students ∧
    (pid = none → (deleteCollection db pid).2 = db) ∧
    (∀ hid, pid = some hid → findHistory db hid = none →
      deleteCollection db pid = (.notFound "Collection record not found", db)) ∧
    (∀ hid row, pid = some hid → findHistory db hid = some row →
      (deleteCollection db pid).1 = .ok "Collection record deleted successfully" ∧
      (deleteCollection db pid).2.history
        = db.history.filter (fun r => ¬ r.id = hid)) := by
  refine ⟨?_, ?_, ?_, ?_⟩
  · cases pid with
    | none => rfl
    | some hid =>
      unfold deleteCollection
      cases hfh : findHistory db hid <;> simp [hfh]
  · intro hp
    subst hp
    rfl
  · intro hid hp hnone
    subst hp
    simp [deleteCollection, hnone]
  · intro hid row hp hsome
    subst hp
    have hdel : deleteCollection db (some hid) =
        (.ok "Collection record deleted successfully",
         { db with history := db.history.filter (fun r => ¬ r.id = hid) }) := by
      simp [deleteCollection, hsome]
    rw [hdel]
    exact ⟨rfl, rfl⟩

/-- C10 witness: deleting the only history row of the concrete database
succeeds, filters the history table, and leaves the students untouched. -/
theorem C10_witness :
    (deleteCollection exDBprev (some 1)).1
      = .ok "Collection record deleted successfully" ∧
    (deleteCollection exDBprev (some 1)).2.history
      = exDBprev.history.filter (fun r => ¬ r.id = 1) :=
  (C10_delete_frame exDBprev (some 1)).2.2.2 1 exRowPrev rfl
    (show findHistory exDBprev 1 = some exRowPrev from rfl)

end CityLibrary
